import Mathlib

/-!
Shallow embedding of the Connect-Four engine in `main.go` (the consolidated
variant: constants `BOARD_ROWS`/`BOARD_COLS`, handlers `handleMove`,
`handleMoveAPI`, `aiMoveAPI`, core functions `placePiece`, `checkForWin`,
`checkDirection`, `isBoardFull`, `checkGameEnd`, and the AI selector
`getBestMove`/`findWinningMove`/`getValidMoves`/`findRandomValidMove`/
`isValidMove`/`wouldWin`).

Modelling conventions:
- The anonymous Go grid type `[6][7]int` becomes `Grid := Fin 6 → Fin 7 → ℤ`
  (0 = empty, 1 = player 1, 2 = player 2, as in the Go comments).
- Go's in-place mutation of the global `currentGame` becomes explicit state
  passing: each function takes the state (or board) it reads and returns the
  state it leaves behind.  Functions that probe and revert the board
  (`wouldWin`) return the final board alongside their answer so that the
  net effect on the global board is visible in the model.
- A Go index-out-of-range runtime fault (reachable in `placePiece` when a
  caller passes a column outside [0,7), since the loop's first access
  `Board[5][col]` is unguarded) is modelled by the explicit `PlaceResult.panic`
  constructor, and by `none` at the handler level.
- `rand.Intn(len(moves))` is modelled by a caller-supplied number `k`
  reduced modulo `len(moves)`; any value of `k` is allowed.
- The bounded scan loops of `checkDirection` are modelled with an explicit
  fuel of 7, an upper bound for the number of in-bounds steps from any cell
  of the 6×7 grid in any of the four scan directions.
-/

namespace Puissance4

/-- `BOARD_ROWS` from main.go. -/
def BOARD_ROWS : ℕ := 6

/-- `BOARD_COLS` from main.go. -/
def BOARD_COLS : ℕ := 7

/-- `WINNING_COUNT` from main.go. -/
def WINNING_COUNT : ℕ := 4

/-- `PLAYER_1` from main.go. -/
def PLAYER_1 : ℤ := 1

/-- `PLAYER_2` from main.go. -/
def PLAYER_2 : ℤ := 2

/-- `PLAYER_DRAW` from main.go. -/
def PLAYER_DRAW : ℤ := 3

/-- `CELL_EMPTY` from main.go. -/
def CELL_EMPTY : ℤ := 0

/-- `GAME_MODE_TWO_PLAYER` from main.go. -/
def GAME_MODE_TWO_PLAYER : String := "twoPlayer"

/-- `GAME_MODE_AI` from main.go. -/
def GAME_MODE_AI : String := "ai"

/-- The Go board type `[BOARD_ROWS][BOARD_COLS]int`. -/
abbrev Grid := Fin 6 → Fin 7 → ℤ

/-- The all-empty board `[BOARD_ROWS][BOARD_COLS]int{}`. -/
def emptyGrid : Grid := fun _ _ => 0

/-- Write one cell of the board (`currentGame.Board[r][c] = v`). -/
def setCell (b : Grid) (r : Fin 6) (c : Fin 7) (v : ℤ) : Grid :=
  fun r' c' => if r' = r ∧ c' = c then v else b r' c'

/-- The guarded cell test
`i >= 0 && i < BOARD_ROWS && j >= 0 && j < BOARD_COLS && Board[i][j] == player`
used by the scan loops of `checkDirection`. -/
def cellMatch (b : Grid) (r c : ℤ) (p : ℤ) : Bool :=
  if h : 0 ≤ r ∧ r < 6 ∧ 0 ≤ c ∧ c < 7 then
    b ⟨r.toNat, by omega⟩ ⟨c.toNat, by omega⟩ == p
  else false

/-- One scan loop of `checkDirection`: starting at `(r, c)` and stepping by
`(dr, dc)`, count contiguous in-bounds cells equal to `player`; `fuel` bounds
the number of iterations (7 is enough on a 6×7 grid). -/
def runCount (b : Grid) (p : ℤ) (dr dc : ℤ) : ℤ → ℤ → ℕ → ℕ
  | _, _, 0 => 0
  | r, c, n + 1 =>
    if cellMatch b r c p then runCount b p dr dc (r + dr) (c + dc) n + 1 else 0

/-- `checkDirection(row, col, dRow, dCol, player)` from main.go: `count := 1`,
then count in the `+(dRow,dCol)` sense and in the `-(dRow,dCol)` sense. -/
def checkDirection (b : Grid) (row col dr dc : ℤ) (p : ℤ) : ℕ :=
  1 + runCount b p dr dc (row + dr) (col + dc) 7
    + runCount b p (-dr) (-dc) (row - dr) (col - dc) 7

/-- `checkForWin(row, col)` from main.go: reads the occupant of the cell, then
tries the four directions in order (horizontal, vertical, the two diagonals),
returning the occupant if some direction counts at least `WINNING_COUNT`,
and 0 otherwise. -/
def checkForWin (b : Grid) (row : Fin 6) (col : Fin 7) : ℤ :=
  if 4 ≤ checkDirection b row col 0 1 (b row col) then b row col
  else if 4 ≤ checkDirection b row col 1 0 (b row col) then b row col
  else if 4 ≤ checkDirection b row col 1 1 (b row col) then b row col
  else if 4 ≤ checkDirection b row col (-1) 1 (b row col) then b row col
  else 0

/-- `isBoardFull()` from main.go: every top-row cell is non-empty. -/
def isBoardFull (b : Grid) : Bool :=
  (List.finRange 7).all fun c => !(b 0 c == 0)

/-- The row scan shared by `placePiece` and `wouldWin`: walk the column from
row `BOARD_ROWS-1` down to row 0 and return the first empty row found. -/
def lowestEmptyRow (b : Grid) (c : Fin 7) : Option (Fin 6) :=
  if b 5 c == 0 then some 5
  else if b 4 c == 0 then some 4
  else if b 3 c == 0 then some 3
  else if b 2 c == 0 then some 2
  else if b 1 c == 0 then some 1
  else if b 0 c == 0 then some 0
  else none

/-- The in-range core of `placePiece(col, player)`: place in the first empty
cell scanning from the bottom; `none` is the `return -1` (column full) path,
on which the loop has written nothing. -/
def placePieceF (b : Grid) (c : Fin 7) (p : ℤ) : Option (Grid × Fin 6) :=
  (lowestEmptyRow b c).map fun r => (setCell b r c p, r)

/-- Outcome of `placePiece(col, player)` with an arbitrary `int` column.
`panic` is the Go index-out-of-range runtime fault raised by the very first
unguarded access `Board[5][col]` when `col` is outside [0,7); it occurs
before any write. -/
inductive PlaceResult where
  | panic : PlaceResult
  | columnFull : PlaceResult
  | placed (b : Grid) (row : Fin 6) (col : Fin 7) : PlaceResult
deriving DecidableEq

/-- `placePiece(col, player)` from main.go, on a raw `int` column. -/
def placePiece (b : Grid) (col : ℤ) (p : ℤ) : PlaceResult :=
  if h : 0 ≤ col ∧ col < 7 then
    let c : Fin 7 := ⟨col.toNat, by omega⟩
    match placePieceF b c p with
    | some br => .placed br.1 br.2 c
    | none => .columnFull
  else .panic

/-- The Go struct `GameState`. -/
structure GameState where
  Board : Grid
  CurrentPlayer : ℤ
  Mode : String
  GameOver : Bool
  Winner : ℤ
  StatusMessage : String
deriving DecidableEq

/-- `getWinnerMessage(winner)` from main.go. -/
def getWinnerMessage (winner : ℤ) : String :=
  if winner = PLAYER_1 then "🎉 Le Joueur Rouge (Joueur 1) gagne ! 🎉"
  else if winner = PLAYER_2 then "🎉 Le Joueur Jaune (Joueur 2) gagne ! 🎉"
  else if winner = PLAYER_DRAW then "🤝 Match nul ! Égalité parfaite ! 🤝"
  else ""

/-- `checkGameEnd(row, col)` from main.go: winner check (`winner :=
checkForWin(row, col)` inlined), then draw check, then the conditional
player switch `Mode == twoPlayer || (Mode == ai && CurrentPlayer ==
PLAYER_1)` followed by clearing the status message. -/
def checkGameEnd (g : GameState) (row : Fin 6) (col : Fin 7) : GameState :=
  if 0 < checkForWin g.Board row col then
    { g with GameOver := true, Winner := checkForWin g.Board row col,
             StatusMessage := getWinnerMessage (checkForWin g.Board row col) }
  else if isBoardFull g.Board then
    { g with GameOver := true, Winner := PLAYER_DRAW,
             StatusMessage := "🤝 Match nul !" }
  else if g.Mode = GAME_MODE_TWO_PLAYER ∨
          (g.Mode = GAME_MODE_AI ∧ g.CurrentPlayer = PLAYER_1) then
    { g with CurrentPlayer := PLAYER_2 + PLAYER_1 - g.CurrentPlayer,
             StatusMessage := "" }
  else { g with StatusMessage := "" }

/-- `isValidMove(col)` from main.go:
`col >= 0 && col < BOARD_COLS && Board[0][col] == CELL_EMPTY`. -/
def isValidMove (b : Grid) (col : ℤ) : Bool :=
  if h : 0 ≤ col ∧ col < 7 then b 0 ⟨col.toNat, by omega⟩ == 0 else false

/-- `getValidMoves()` from main.go: the playable columns collected in the
order `col = 0 .. 6`. -/
def getValidMoves (b : Grid) : List ℤ :=
  ((List.range 7).map Int.ofNat).filter (isValidMove b)

/-- `wouldWin(col, player)` from main.go: find the landing row, temporarily
place the piece, run `checkForWin`, revert the cell to `CELL_EMPTY`.
The board that the probe leaves behind is returned alongside the answer.
Every caller passes a column taken from `getValidMoves`, hence in [0,7);
out of that range the Go access `Board[r][col]` would fault, and the model
returns `(b, false)` on that (unreachable) branch. -/
def wouldWin (b : Grid) (col : ℤ) (p : ℤ) : Grid × Bool :=
  if h : 0 ≤ col ∧ col < 7 then
    let c : Fin 7 := ⟨col.toNat, by omega⟩
    match lowestEmptyRow b c with
    | none => (b, false)
    | some row =>
      let b1 := setCell b row c p
      let winner := checkForWin b1 row c
      let b2 := setCell b1 row c 0
      (b2, winner == p)
  else (b, false)

/-- The scan loop of `findWinningMove(player)`, threading the board through
each `wouldWin` probe. -/
def findWinningMoveAux (p : ℤ) : Grid → List ℤ → Grid × Option ℤ
  | b, [] => (b, none)
  | b, col :: rest =>
    let res := wouldWin b col p
    if res.2 then (res.1, some col) else findWinningMoveAux p res.1 rest

/-- `findWinningMove(player)` from main.go: first column of `getValidMoves()`
whose probe wins (`none` is the `return -1` path). -/
def findWinningMove (b : Grid) (p : ℤ) : Grid × Option ℤ :=
  findWinningMoveAux p b (getValidMoves b)

/-- `findRandomValidMove()` from main.go; `k % len(moves)` models
`rand.Intn(len(moves))`, and the empty-list guard returns 0. -/
def findRandomValidMove (b : Grid) (k : ℕ) : ℤ :=
  let moves := getValidMoves b
  if h : moves.length = 0 then 0
  else moves.get ⟨k % moves.length, Nat.mod_lt _ (Nat.pos_of_ne_zero h)⟩

/-- `getBestMove()` from main.go: win now, else block, else centre column 3,
else random valid move; the board threaded through the probes is returned. -/
def getBestMove (b : Grid) (k : ℕ) : Grid × ℤ :=
  match findWinningMove b PLAYER_2 with
  | (b1, some col) => (b1, col)
  | (b1, none) =>
    match findWinningMove b1 PLAYER_1 with
    | (b2, some col) => (b2, col)
    | (b2, none) =>
      if isValidMove b2 3 then (b2, 3)
      else (b2, findRandomValidMove b2 k)

/-- `aiMakeMove()` from main.go: pick a column, place for `PLAYER_2`; on
`row == -1` return at once; otherwise `checkGameEnd`, and when the game is
not over hand the turn back to `PLAYER_1`.  On the (unreachable) panic branch
the state at the fault is the input state with the probed board. -/
def aiMakeMove (g : GameState) (k : ℕ) : GameState :=
  let res := getBestMove g.Board k
  match placePiece res.1 res.2 PLAYER_2 with
  | .panic => { g with Board := res.1 }
  | .columnFull => { g with Board := res.1 }
  | .placed b' row c =>
    let g1 := checkGameEnd { g with Board := b' } row c
    if g1.GameOver = false then
      { g1 with CurrentPlayer := PLAYER_1, StatusMessage := "" }
    else g1

/-- `handleMove` from main.go (the `/game/move` handler), after form parsing:
reject a column outside [0,7), place, on `-1` report a full column, else
`checkGameEnd` and, when the game is not over in AI mode with `PLAYER_2` to
move, run `aiMakeMove` before returning. -/
def handleMove (g : GameState) (col : ℤ) (k : ℕ) : GameState :=
  if col < 0 ∨ 7 ≤ col then { g with StatusMessage := "❌ Colonne invalide" }
  else
    match placePiece g.Board col g.CurrentPlayer with
    | .panic => g
    | .columnFull => { g with StatusMessage := "❌ Colonne pleine !" }
    | .placed b' row c =>
      let g1 := checkGameEnd { g with Board := b' } row c
      if g1.GameOver = false ∧ g1.Mode = GAME_MODE_AI ∧
         g1.CurrentPlayer = PLAYER_2 then
        aiMakeMove g1 k
      else g1

/-- `handleMoveAPI` from main.go (the `/api/move` handler), after JSON
decoding: no bounds check and no game-over check — `placePiece` is called on
the raw column.  `none` is the index-out-of-range fault, `some g` with the
state unchanged is the `Success: false, "Colonne pleine"` response. -/
def handleMoveAPI (g : GameState) (col : ℤ) : Option GameState :=
  match placePiece g.Board col g.CurrentPlayer with
  | .panic => none
  | .columnFull => some g
  | .placed b' row c => some (checkGameEnd { g with Board := b' } row c)

/-!
## Specification-level definitions

These follow the wording of the specification, not the code, and are compared
with the code-derived definitions above.
-/

/-- The four line orientations of the specification: horizontal, vertical and
the two diagonals (each orientation scanned in both senses). -/
def dirs : List (ℤ × ℤ) := [(0, 1), (1, 0), (1, 1), (-1, 1)]

/-- Spec wording for `CheckWin`: the cell `(row, col)` lies on a contiguous
line of at least 4 in-bounds cells, all occupied by `p`, in one of the four
orientations; the window of four consecutive cells contains the cell itself
(offset 0 lies between `s` and `s + 3`). -/
def winLineAt (b : Grid) (row col : ℤ) (p : ℤ) : Prop :=
  ∃ d ∈ dirs, ∃ s : ℤ, -3 ≤ s ∧ s ≤ 0 ∧
    ∀ i : ℤ, 0 ≤ i → i < 4 →
      cellMatch b (row + (s + i) * d.1) (col + (s + i) * d.2) p = true

/-- Spec wording for the AI probe: column `col` has room and the hypothetical
placement of `p` there wins. -/
def winsAt (b : Grid) (col : ℤ) (p : ℤ) : Prop :=
  isValidMove b col = true ∧ (wouldWin b col p).2 = true

instance (b : Grid) (col p : ℤ) : Decidable (winsAt b col p) := by
  unfold winsAt; infer_instance

/-- Spec wording for rules 1 and 2 of `ChooseColumn`: scan the columns left
to right and take the first qualifying one. -/
def leftmostWin (b : Grid) (p : ℤ) : Option ℤ :=
  (((List.range 7).map Int.ofNat).find? fun col => decide (winsAt b col p))

/-- `ChooseColumn`, written from the specification's priority order: win now,
else block the opponent, else the centre column 3 if it has room, else a
column with room (the random fallback, with `k` the random draw). -/
def chooseColumnSpec (b : Grid) (k : ℕ) : ℤ :=
  match leftmostWin b PLAYER_2 with
  | some col => col
  | none =>
    match leftmostWin b PLAYER_1 with
    | some col => col
    | none => if isValidMove b 3 then 3 else findRandomValidMove b k

/-- Number of occupied cells of a board. -/
def pieceCount (b : Grid) : ℕ :=
  (Finset.univ.filter fun rc : Fin 6 × Fin 7 => b rc.1 rc.2 ≠ 0).card

/-- Gravity invariant of the specification: in every column, below an
occupied cell every cell is occupied (row indices grow downwards). -/
def gravityOK (b : Grid) : Prop :=
  ∀ c : Fin 7, ∀ r r' : Fin 6, b r c ≠ 0 → r ≤ r' → b r' c ≠ 0

instance (b : Grid) : Decidable (gravityOK b) := by
  unfold gravityOK; infer_instance

/-- Boards reachable from the empty board by successful placements of the
two sides (the legal moves of the game). -/
inductive Reachable : Grid → Prop where
  | empty : Reachable emptyGrid
  | step (b b' : Grid) (c : Fin 7) (p : ℤ) (r : Fin 6) :
      Reachable b → (p = 1 ∨ p = 2) → placePieceF b c p = some (b', r) →
      Reachable b'

/-!
## Basic lemmas about cells and placement
-/

theorem setCell_self (b : Grid) (r : Fin 6) (c : Fin 7) (v : ℤ) :
    setCell b r c v r c = v := by
  simp [setCell]

theorem setCell_other (b : Grid) (r : Fin 6) (c : Fin 7) (v : ℤ)
    (r' : Fin 6) (c' : Fin 7) (h : ¬(r' = r ∧ c' = c)) :
    setCell b r c v r' c' = b r' c' := by
  simp [setCell, h]

theorem setCell_revert (b : Grid) (r : Fin 6) (c : Fin 7) (p : ℤ)
    (h : b r c = 0) : setCell (setCell b r c p) r c 0 = b := by
  funext r' c'
  by_cases hrc : r' = r ∧ c' = c
  · obtain ⟨hr, hc⟩ := hrc; subst hr; subst hc
    simp [setCell, h]
  · simp [setCell, hrc]

theorem lowestEmptyRow_spec (b : Grid) (c : Fin 7) (r : Fin 6)
    (h : lowestEmptyRow b c = some r) :
    b r c = 0 ∧ ∀ r' : Fin 6, r < r' → b r' c ≠ 0 := by
  unfold lowestEmptyRow at h
  split_ifs at h with h5 h4 h3 h2 h1 h0 <;>
    simp only [Option.some.injEq] at h <;> subst h <;>
    simp only [beq_iff_eq, beq_eq_false_iff_ne] at * <;>
    refine ⟨by assumption, ?_⟩ <;>
    intro r' hr' <;> fin_cases r' <;>
    first
      | exact absurd hr' (by decide)
      | assumption

theorem lowestEmptyRow_none (b : Grid) (c : Fin 7)
    (h : lowestEmptyRow b c = none) : ∀ r : Fin 6, b r c ≠ 0 := by
  unfold lowestEmptyRow at h
  split_ifs at h with h5 h4 h3 h2 h1 h0
  intro r
  fin_cases r <;> simp_all

theorem lowestEmptyRow_isSome (b : Grid) (c : Fin 7) (r : Fin 6)
    (h : b r c = 0) : ∃ r', lowestEmptyRow b c = some r' := by
  by_contra hnone
  push_neg at hnone
  have : lowestEmptyRow b c = none := by
    cases hlow : lowestEmptyRow b c with
    | none => rfl
    | some r' => exact absurd hlow (hnone r')
  exact lowestEmptyRow_none b c this r h

/-!
## Run counting and the win-line characterisation
-/

theorem runCount_cells (b : Grid) (p dr dc : ℤ) :
    ∀ (n : ℕ) (r c : ℤ) (j : ℕ), j < runCount b p dr dc r c n →
      cellMatch b (r + (j : ℤ) * dr) (c + (j : ℤ) * dc) p = true := by
  intro n
  induction n with
  | zero => intro r c j h; simp [runCount] at h
  | succ n ih =>
    intro r c j h
    rw [runCount] at h
    split_ifs at h with hm
    · cases j with
      | zero => simpa using hm
      | succ j =>
        have h2 := ih (r + dr) (c + dc) j (by omega)
        have e1 : r + dr + (j : ℤ) * dr = r + ((j + 1 : ℕ) : ℤ) * dr := by
          push_cast; ring
        have e2 : c + dc + (j : ℤ) * dc = c + ((j + 1 : ℕ) : ℤ) * dc := by
          push_cast; ring
        rw [e1, e2] at h2
        exact h2
    · omega

theorem runCount_ge (b : Grid) (p dr dc : ℤ) :
    ∀ (n k : ℕ) (r c : ℤ), k ≤ n →
      (∀ j : ℕ, j < k →
        cellMatch b (r + (j : ℤ) * dr) (c + (j : ℤ) * dc) p = true) →
      k ≤ runCount b p dr dc r c n := by
  intro n
  induction n with
  | zero => intro k r c hk _; simp only [runCount]; omega
  | succ n ih =>
    intro k r c hk hall
    cases k with
    | zero => exact Nat.zero_le _
    | succ k =>
      have h0 : cellMatch b r c p = true := by simpa using hall 0 (by omega)
      rw [runCount, if_pos h0]
      have hrec : k ≤ runCount b p dr dc (r + dr) (c + dc) n := by
        refine ih k (r + dr) (c + dc) (by omega) ?_
        intro j hj
        have h2 := hall (j + 1) (by omega)
        have e1 : r + ((j + 1 : ℕ) : ℤ) * dr = r + dr + (j : ℤ) * dr := by
          push_cast; ring
        have e2 : c + ((j + 1 : ℕ) : ℤ) * dc = c + dc + (j : ℤ) * dc := by
          push_cast; ring
        rw [e1, e2] at h2
        exact h2
      omega

theorem checkDirection_ge_iff (b : Grid) (p dr dc row col : ℤ)
    (hcenter : cellMatch b row col p = true) :
    4 ≤ checkDirection b row col dr dc p ↔
      ∃ s : ℤ, -3 ≤ s ∧ s ≤ 0 ∧ ∀ i : ℤ, 0 ≤ i → i < 4 →
        cellMatch b (row + (s + i) * dr) (col + (s + i) * dc) p = true := by
  have posCell : ∀ j : ℕ, 1 ≤ j →
      j ≤ runCount b p dr dc (row + dr) (col + dc) 7 →
      cellMatch b (row + (j : ℤ) * dr) (col + (j : ℤ) * dc) p = true := by
    intro j h1 h2
    have h3 := runCount_cells b p dr dc 7 (row + dr) (col + dc) (j - 1)
      (by omega)
    have ej : ((j - 1 : ℕ) : ℤ) = (j : ℤ) - 1 := by omega
    have e1 : row + dr + ((j - 1 : ℕ) : ℤ) * dr = row + (j : ℤ) * dr := by
      rw [ej]; ring
    have e2 : col + dc + ((j - 1 : ℕ) : ℤ) * dc = col + (j : ℤ) * dc := by
      rw [ej]; ring
    rw [e1, e2] at h3
    exact h3
  have negCell : ∀ j : ℕ, 1 ≤ j →
      j ≤ runCount b p (-dr) (-dc) (row - dr) (col - dc) 7 →
      cellMatch b (row - (j : ℤ) * dr) (col - (j : ℤ) * dc) p = true := by
    intro j h1 h2
    have h3 := runCount_cells b p (-dr) (-dc) 7 (row - dr) (col - dc) (j - 1)
      (by omega)
    have ej : ((j - 1 : ℕ) : ℤ) = (j : ℤ) - 1 := by omega
    have e1 : row - dr + ((j - 1 : ℕ) : ℤ) * (-dr) = row - (j : ℤ) * dr := by
      rw [ej]; ring
    have e2 : col - dc + ((j - 1 : ℕ) : ℤ) * (-dc) = col - (j : ℤ) * dc := by
      rw [ej]; ring
    rw [e1, e2] at h3
    exact h3
  unfold checkDirection
  set P := runCount b p dr dc (row + dr) (col + dc) 7 with hPdef
  set N := runCount b p (-dr) (-dc) (row - dr) (col - dc) 7 with hNdef
  constructor
  · intro h
    have hPN : 3 ≤ P + N := by omega
    refine ⟨-((min N 3 : ℕ) : ℤ), by omega, by omega, ?_⟩
    intro i hi0 hi4
    rcases lt_trichotomy (-((min N 3 : ℕ) : ℤ) + i) 0 with ht | ht | ht
    · have hj1 : 1 ≤ min N 3 - i.toNat := by omega
      have hj2 : min N 3 - i.toNat ≤ N := by omega
      have hcell := negCell (min N 3 - i.toNat) hj1 hj2
      have ej : ((min N 3 - i.toNat : ℕ) : ℤ) = -(-((min N 3 : ℕ) : ℤ) + i) := by
        omega
      have e1 : row - ((min N 3 - i.toNat : ℕ) : ℤ) * dr =
          row + (-((min N 3 : ℕ) : ℤ) + i) * dr := by rw [ej]; ring
      have e2 : col - ((min N 3 - i.toNat : ℕ) : ℤ) * dc =
          col + (-((min N 3 : ℕ) : ℤ) + i) * dc := by rw [ej]; ring
      rw [e1, e2] at hcell
      exact hcell
    · rw [ht]
      have e1 : row + 0 * dr = row := by ring
      have e2 : col + 0 * dc = col := by ring
      rw [e1, e2]
      exact hcenter
    · have hj1 : 1 ≤ i.toNat - min N 3 := by omega
      have hj2 : i.toNat - min N 3 ≤ P := by omega
      have hcell := posCell (i.toNat - min N 3) hj1 hj2
      have ej : ((i.toNat - min N 3 : ℕ) : ℤ) = -((min N 3 : ℕ) : ℤ) + i := by
        omega
      have e1 : row + ((i.toNat - min N 3 : ℕ) : ℤ) * dr =
          row + (-((min N 3 : ℕ) : ℤ) + i) * dr := by rw [ej]
      have e2 : col + ((i.toNat - min N 3 : ℕ) : ℤ) * dc =
          col + (-((min N 3 : ℕ) : ℤ) + i) * dc := by rw [ej]
      rw [e1, e2] at hcell
      exact hcell
  · rintro ⟨s, hs3, hs0, hwin⟩
    have hm : (((s + 3).toNat : ℕ) : ℤ) = s + 3 := by omega
    have ha : (((-s).toNat : ℕ) : ℤ) = -s := by omega
    have hpos : (s + 3).toNat ≤ P := by
      rw [hPdef]
      refine runCount_ge b p dr dc 7 _ (row + dr) (col + dc) (by omega) ?_
      intro j hj
      have hw := hwin ((j : ℤ) + 1 - s) (by omega) (by omega)
      have e1 : row + (s + ((j : ℤ) + 1 - s)) * dr =
          row + dr + (j : ℤ) * dr := by ring
      have e2 : col + (s + ((j : ℤ) + 1 - s)) * dc =
          col + dc + (j : ℤ) * dc := by ring
      rw [e1, e2] at hw
      exact hw
    have hneg : (-s).toNat ≤ N := by
      rw [hNdef]
      refine runCount_ge b p (-dr) (-dc) 7 _ (row - dr) (col - dc) (by omega) ?_
      intro j hj
      have hw := hwin (-(j : ℤ) - 1 - s) (by omega) (by omega)
      have e1 : row + (s + (-(j : ℤ) - 1 - s)) * dr =
          row - dr + (j : ℤ) * (-dr) := by ring
      have e2 : col + (s + (-(j : ℤ) - 1 - s)) * dc =
          col - dc + (j : ℤ) * (-dc) := by ring
      rw [e1, e2] at hw
      exact hw
    omega

theorem checkForWin_eq_self_or_zero (b : Grid) (row : Fin 6) (col : Fin 7) :
    checkForWin b row col = b row col ∨ checkForWin b row col = 0 := by
  unfold checkForWin
  split_ifs <;> simp

theorem cellMatch_center (b : Grid) (row : Fin 6) (col : Fin 7) (p : ℤ)
    (hp : b row col = p) : cellMatch b (row : ℤ) (col : ℤ) p = true := by
  have h6 : (0 : ℤ) ≤ (row : ℤ) ∧ (row : ℤ) < 6 ∧
      (0 : ℤ) ≤ (col : ℤ) ∧ (col : ℤ) < 7 := by
    refine ⟨by exact_mod_cast Nat.zero_le _, by exact_mod_cast row.isLt,
      by exact_mod_cast Nat.zero_le _, by exact_mod_cast col.isLt⟩
  unfold cellMatch
  rw [dif_pos h6]
  have er : (⟨((row : ℤ)).toNat, by omega⟩ : Fin 6) = row := by
    apply Fin.ext; simp
  have ec : (⟨((col : ℤ)).toNat, by omega⟩ : Fin 7) = col := by
    apply Fin.ext; simp
  rw [er, ec, hp]
  simp

theorem checkForWin_iff (b : Grid) (row : Fin 6) (col : Fin 7) (p : ℤ)
    (hp : b row col = p) (hpne : p ≠ 0) :
    checkForWin b row col = p ↔ winLineAt b (row : ℤ) (col : ℤ) p := by
  have hcenter := cellMatch_center b row col p hp
  have hiff : winLineAt b (row : ℤ) (col : ℤ) p ↔
      (4 ≤ checkDirection b row col 0 1 p ∨
       4 ≤ checkDirection b row col 1 0 p ∨
       4 ≤ checkDirection b row col 1 1 p ∨
       4 ≤ checkDirection b row col (-1) 1 p) := by
    constructor
    · rintro ⟨d, hd, s, h1, h2, h3⟩
      simp only [dirs, List.mem_cons, List.mem_singleton,
        List.not_mem_nil, or_false] at hd
      rcases hd with hd | hd | hd | hd <;> subst hd
      · exact Or.inl ((checkDirection_ge_iff b p 0 1 row col hcenter).mpr
          ⟨s, h1, h2, h3⟩)
      · exact Or.inr (Or.inl ((checkDirection_ge_iff b p 1 0 row col
          hcenter).mpr ⟨s, h1, h2, h3⟩))
      · exact Or.inr (Or.inr (Or.inl ((checkDirection_ge_iff b p 1 1 row col
          hcenter).mpr ⟨s, h1, h2, h3⟩)))
      · exact Or.inr (Or.inr (Or.inr ((checkDirection_ge_iff b p (-1) 1 row
          col hcenter).mpr ⟨s, h1, h2, h3⟩)))
    · rintro (h | h | h | h)
      · exact ⟨(0, 1), by simp [dirs],
          (checkDirection_ge_iff b p 0 1 row col hcenter).mp h⟩
      · exact ⟨(1, 0), by simp [dirs],
          (checkDirection_ge_iff b p 1 0 row col hcenter).mp h⟩
      · exact ⟨(1, 1), by simp [dirs],
          (checkDirection_ge_iff b p 1 1 row col hcenter).mp h⟩
      · exact ⟨(-1, 1), by simp [dirs],
          (checkDirection_ge_iff b p (-1) 1 row col hcenter).mp h⟩
  rw [hiff]
  unfold checkForWin
  rw [hp]
  split_ifs with h1 h2 h3 h4
  · exact ⟨fun _ => Or.inl h1, fun _ => rfl⟩
  · exact ⟨fun _ => Or.inr (Or.inl h2), fun _ => rfl⟩
  · exact ⟨fun _ => Or.inr (Or.inr (Or.inl h3)), fun _ => rfl⟩
  · exact ⟨fun _ => Or.inr (Or.inr (Or.inr h4)), fun _ => rfl⟩
  · constructor
    · intro h
      exact absurd h.symm hpne
    · rintro (h | h | h | h) <;> contradiction

theorem placePiece_coe (b : Grid) (c : Fin 7) (p : ℤ) :
    placePiece b (c : ℤ) p =
      match placePieceF b c p with
      | some br => .placed br.1 br.2 c
      | none => .columnFull := by
  have hb : (0 : ℤ) ≤ (c : ℤ) ∧ (c : ℤ) < 7 :=
    ⟨by exact_mod_cast Nat.zero_le _, by exact_mod_cast c.isLt⟩
  rw [placePiece, dif_pos hb]
  simp only [Int.toNat_natCast, Fin.eta]

/-!
## Claim C4 — `checkForWin` finds exactly the ≥4 lines through the cell
-/

/-- C4: for a board with `(row, col)` occupied by side `p`, `checkForWin`
returns `p` if and only if the cell lies on a contiguous line of at least 4
cells all occupied by `p` in one of the four orientations (counting the cell
itself plus the extensions in both senses), and returns 0 otherwise; the
quantification covers all boundary-anchored lines. -/
theorem checkForWin_wins_iff_winLine (b : Grid) (row : Fin 6) (col : Fin 7)
    (p : ℤ) (hp : b row col = p) (hpne : p ≠ 0) :
    (checkForWin b row col = p ↔ winLineAt b (row : ℤ) (col : ℤ) p) ∧
    (¬ winLineAt b (row : ℤ) (col : ℤ) p → checkForWin b row col = 0) := by
  have h := checkForWin_iff b row col p hp hpne
  refine ⟨h, fun hn => ?_⟩
  rcases checkForWin_eq_self_or_zero b row col with h0 | h0
  · rw [hp] at h0
    exact absurd (h.mp h0) hn
  · exact h0

/-- A board holding a vertical four for player 1 anchored at the top row of
column 0 (rows 0–3), the column completed over two pieces of player 2. -/
def bVert : Grid :=
  ![![1, 0, 0, 0, 0, 0, 0], ![1, 0, 0, 0, 0, 0, 0], ![1, 0, 0, 0, 0, 0, 0],
    ![1, 0, 0, 0, 0, 0, 0], ![2, 0, 0, 0, 0, 0, 0], ![2, 0, 0, 0, 0, 0, 0]]

/-- Witness for the C4 theorem at the boundary-anchored vertical four of
`bVert` (top-row cell (0,0)). -/
theorem checkForWin_wins_iff_winLine_witness :
    (bVert 0 0 = 1 ∧ (1 : ℤ) ≠ 0) ∧
    ((checkForWin bVert 0 0 = 1 ↔
        winLineAt bVert ((0 : Fin 6) : ℤ) ((0 : Fin 7) : ℤ) 1) ∧
      (¬ winLineAt bVert ((0 : Fin 6) : ℤ) ((0 : Fin 7) : ℤ) 1 →
        checkForWin bVert 0 0 = 0)) :=
  ⟨⟨by decide, by decide⟩,
    checkForWin_wins_iff_winLine bVert 0 0 1 (by decide) (by decide)⟩

/-!
## Claim C5 — `placePiece` fills the lowest empty cell
-/

/-- C5: for every column and side, when the column has an empty cell,
`placePiece` sets the lowest empty cell (the largest row index holding 0) to
that side, returns that row, and changes no other cell; when the column is
full it reports `columnFull` — a path on which the scan loop writes nothing,
so the caller's board is untouched. -/
theorem placePiece_lowest_empty (b : Grid) (c : Fin 7) (p : ℤ) :
    ((∃ r : Fin 6, b r c = 0) →
      ∃ r : Fin 6, placePiece b (c : ℤ) p = .placed (setCell b r c p) r c ∧
        b r c = 0 ∧ (∀ r' : Fin 6, r < r' → b r' c ≠ 0) ∧
        setCell b r c p r c = p ∧
        (∀ (r' : Fin 6) (c' : Fin 7), ¬(r' = r ∧ c' = c) →
          setCell b r c p r' c' = b r' c')) ∧
    ((∀ r : Fin 6, b r c ≠ 0) → placePiece b (c : ℤ) p = .columnFull) := by
  rw [placePiece_coe]
  constructor
  · rintro ⟨r0, hr0⟩
    obtain ⟨r, hr⟩ := lowestEmptyRow_isSome b c r0 hr0
    obtain ⟨hempty, habove⟩ := lowestEmptyRow_spec b c r hr
    refine ⟨r, ?_, hempty, habove, setCell_self b r c p,
      fun r' c' h => setCell_other b r c p r' c' h⟩
    simp [placePieceF, hr]
  · intro hfull
    have hnone : lowestEmptyRow b c = none := by
      cases hlow : lowestEmptyRow b c with
      | none => rfl
      | some r =>
        exact absurd (lowestEmptyRow_spec b c r hlow).1 (hfull r)
    simp [placePieceF, hnone]

/-- A board whose column 0 is completely full (and column 1 is not). -/
def bFullCol : Grid :=
  ![![2, 0, 0, 0, 0, 0, 0], ![1, 0, 0, 0, 0, 0, 0], ![2, 0, 0, 0, 0, 0, 0],
    ![1, 0, 0, 0, 0, 0, 0], ![2, 0, 0, 0, 0, 0, 0], ![1, 0, 0, 0, 0, 0, 0]]

/-- Witness for the C5 theorem: a placement into the empty column 1 of
`bFullCol` lands at the bottom row, and a placement into the saturated
column 0 reports `columnFull`. -/
theorem placePiece_lowest_empty_witness :
    ((∃ r : Fin 6, bFullCol r 1 = 0) ∧
      ∃ r : Fin 6,
        placePiece bFullCol ((1 : Fin 7) : ℤ) 1 =
          .placed (setCell bFullCol r 1 1) r 1 ∧
        bFullCol r 1 = 0 ∧ (∀ r' : Fin 6, r < r' → bFullCol r' 1 ≠ 0) ∧
        setCell bFullCol r 1 1 r 1 = 1 ∧
        (∀ (r' : Fin 6) (c' : Fin 7), ¬(r' = r ∧ c' = 1) →
          setCell bFullCol r 1 1 r' c' = bFullCol r' c')) ∧
    ((∀ r : Fin 6, bFullCol r 0 ≠ 0) ∧
      placePiece bFullCol ((0 : Fin 7) : ℤ) 2 = .columnFull) :=
  ⟨⟨⟨5, by decide⟩,
      (placePiece_lowest_empty bFullCol 1 1).1 ⟨5, by decide⟩⟩,
    ⟨by decide, (placePiece_lowest_empty bFullCol 0 2).2 (by decide)⟩⟩

/-!
## Claim C7 — probing never leaves a net board mutation
-/

theorem wouldWin_fst (b : Grid) (col p : ℤ) : (wouldWin b col p).1 = b := by
  unfold wouldWin
  split_ifs with h
  · cases hlow : lowestEmptyRow b ⟨col.toNat, by omega⟩ with
    | none => simp [hlow]
    | some row =>
      simp only [hlow]
      exact setCell_revert b row ⟨col.toNat, by omega⟩ p
        (lowestEmptyRow_spec b _ row hlow).1
  · rfl

theorem findWinningMoveAux_spec (p : ℤ) (b : Grid) (l : List ℤ) :
    findWinningMoveAux p b l =
      (b, l.find? fun col => (wouldWin b col p).2) := by
  induction l generalizing b with
  | nil => simp [findWinningMoveAux]
  | cons col rest ih =>
    unfold findWinningMoveAux
    have hb := wouldWin_fst b col p
    by_cases hw : (wouldWin b col p).2 = true
    · rw [if_pos hw, hb]
      simp [List.find?_cons, hw]
    · rw [if_neg hw, hb, ih]
      simp only [Bool.not_eq_true] at hw
      simp [List.find?_cons, hw]

theorem findWinningMove_spec (b : Grid) (p : ℤ) :
    findWinningMove b p =
      (b, (getValidMoves b).find? fun col => (wouldWin b col p).2) :=
  findWinningMoveAux_spec p b (getValidMoves b)

theorem getBestMove_spec (b : Grid) (k : ℕ) :
    getBestMove b k =
      (b,
        match (getValidMoves b).find? (fun col => (wouldWin b col PLAYER_2).2) with
        | some col => col
        | none =>
          match (getValidMoves b).find? (fun col => (wouldWin b col PLAYER_1).2) with
          | some col => col
          | none => if isValidMove b 3 then 3 else findRandomValidMove b k) := by
  unfold getBestMove
  rw [findWinningMove_spec b PLAYER_2]
  cases (getValidMoves b).find? fun col => (wouldWin b col PLAYER_2).2 with
  | some col => rfl
  | none =>
    simp only
    rw [findWinningMove_spec b PLAYER_1]
    cases (getValidMoves b).find? fun col => (wouldWin b col PLAYER_1).2 with
    | some col => rfl
    | none =>
      show (if isValidMove b 3 = true then (b, (3 : ℤ))
            else (b, findRandomValidMove b k)) = _
      split_ifs <;> rfl

theorem getBestMove_fst (b : Grid) (k : ℕ) : (getBestMove b k).1 = b := by
  rw [getBestMove_spec]

/-- C7: a `wouldWin` probe returns the board exactly as it was (the
hypothetical placement is reverted on every path), and a whole `getBestMove`
call makes no net board modification. -/
theorem wouldWin_no_net_mutation :
    (∀ (b : Grid) (col p : ℤ), (wouldWin b col p).1 = b) ∧
    (∀ (b : Grid) (k : ℕ), (getBestMove b k).1 = b) :=
  ⟨wouldWin_fst, getBestMove_fst⟩

/-!
## Claim C6 — priority order of the AI selector
-/

theorem find?_filter_eq {α : Type} (l : List α) (f g : α → Bool) :
    (l.filter f).find? g = l.find? fun a => f a && g a := by
  induction l with
  | nil => rfl
  | cons a l ih =>
    by_cases hf : f a = true
    · by_cases hg : g a = true
      · simp [List.filter_cons, hf, List.find?_cons, hg]
      · simp only [Bool.not_eq_true] at hg
        simp [List.filter_cons, hf, List.find?_cons, hg, ih]
    · simp only [Bool.not_eq_true] at hf
      simp [List.filter_cons, hf, List.find?_cons, ih]

theorem decide_winsAt (b : Grid) (col p : ℤ) :
    decide (winsAt b col p) = (isValidMove b col && (wouldWin b col p).2) := by
  cases hv : isValidMove b col <;> cases hw : (wouldWin b col p).2 <;>
    simp [winsAt, hv, hw]

theorem leftmostWin_eq (b : Grid) (p : ℤ) :
    leftmostWin b p =
      (getValidMoves b).find? fun col => (wouldWin b col p).2 := by
  unfold leftmostWin getValidMoves
  rw [find?_filter_eq]
  congr 1
  funext col
  rw [decide_winsAt]

theorem getBestMove_refine (b : Grid) (k : ℕ) :
    (getBestMove b k).2 = chooseColumnSpec b k := by
  rw [getBestMove_spec]
  unfold chooseColumnSpec
  rw [leftmostWin_eq, leftmostWin_eq]

/-- The board of the priority-ordering scenario: the automated side
(player 2) has a three-high stack in column 2, the opponent (player 1) a
three-high stack in column 5; either side completes a vertical four by
playing its own column. -/
def bWinBlock : Grid :=
  ![![0, 0, 0, 0, 0, 0, 0], ![0, 0, 0, 0, 0, 0, 0], ![0, 0, 0, 0, 0, 0, 0],
    ![0, 0, 2, 0, 0, 1, 0], ![0, 0, 2, 0, 0, 1, 0], ![0, 0, 2, 0, 0, 1, 0]]

/-- C6: `getBestMove` refines the spec's fixed priority order — it returns
the leftmost column with room that wins for player 2, failing that the
leftmost that would let player 1 win, failing that column 3 if it has room,
failing that a column with room; the scan is left-to-right so rules 1 and 2
break ties by column index.  On `bWinBlock` (own win in column 2, opponent
win in column 5) it returns 2 for every random draw. -/
theorem getBestMove_priority_order :
    (∀ (b : Grid) (k : ℕ), (getBestMove b k).2 = chooseColumnSpec b k) ∧
    (∀ k : ℕ, (getBestMove bWinBlock k).2 = 2) ∧
    winsAt bWinBlock 2 PLAYER_2 ∧ winsAt bWinBlock 5 PLAYER_1 := by
  refine ⟨getBestMove_refine, ?_, by decide, by decide⟩
  intro k
  rw [getBestMove_refine]
  have h2 : leftmostWin bWinBlock PLAYER_2 = some 2 := by decide
  unfold chooseColumnSpec
  rw [h2]

/-!
## Claim C10 — the AI selector is total
-/

theorem isValidMove_bounds (b : Grid) (col : ℤ) (h : isValidMove b col = true) :
    0 ≤ col ∧ col < 7 := by
  unfold isValidMove at h
  split_ifs at h with hb
  exact hb

theorem mem_getValidMoves (b : Grid) (col : ℤ) (h : col ∈ getValidMoves b) :
    isValidMove b col = true := by
  unfold getValidMoves at h
  exact (List.mem_filter.mp h).2

theorem findRandomValidMove_valid (b : Grid) (k : ℕ)
    (h : getValidMoves b ≠ []) :
    isValidMove b (findRandomValidMove b k) = true := by
  unfold findRandomValidMove
  rw [dif_neg (by simpa using h)]
  exact mem_getValidMoves b _ (List.get_mem _ _ _)

theorem find?_mem_getValidMoves (b : Grid) (f : ℤ → Bool) (col : ℤ)
    (h : (getValidMoves b).find? f = some col) :
    isValidMove b col = true :=
  mem_getValidMoves b col (List.mem_of_find?_eq_some h)

theorem chooseColumnSpec_valid (b : Grid) (k : ℕ)
    (h : getValidMoves b ≠ []) :
    isValidMove b (chooseColumnSpec b k) = true := by
  unfold chooseColumnSpec
  rw [leftmostWin_eq, leftmostWin_eq]
  cases h2 : (getValidMoves b).find? fun col => (wouldWin b col PLAYER_2).2 with
  | some col => exact find?_mem_getValidMoves b _ col h2
  | none =>
    cases h1 : (getValidMoves b).find? fun col => (wouldWin b col PLAYER_1).2 with
    | some col => exact find?_mem_getValidMoves b _ col h1
    | none =>
      by_cases h3 : isValidMove b 3 = true
      · simp [h3]
      · simp only [Bool.not_eq_true] at h3
        simp only [h3, Bool.false_eq_true, if_false]
        exact findRandomValidMove_valid b k h

theorem getBestMove_snd_bounds (b : Grid) (k : ℕ) :
    0 ≤ (getBestMove b k).2 ∧ (getBestMove b k).2 < 7 := by
  rw [getBestMove_refine]
  by_cases h : getValidMoves b = []
  · unfold chooseColumnSpec
    rw [leftmostWin_eq, leftmostWin_eq, h]
    simp only [List.find?_nil]
    by_cases h3 : isValidMove b 3 = true
    · simp [h3]
    · simp only [Bool.not_eq_true] at h3
      simp only [h3, Bool.false_eq_true, if_false]
      unfold findRandomValidMove
      rw [dif_pos (by simp [h])]
      simp
  · exact isValidMove_bounds b _ (chooseColumnSpec_valid b k h)

theorem lowestEmptyRow_eq_none (b : Grid) (c : Fin 7)
    (h : ∀ r : Fin 6, b r c ≠ 0) : lowestEmptyRow b c = none := by
  unfold lowestEmptyRow
  split_ifs with h5 h4 h3 h2 h1 h0 <;> simp_all

theorem aiMakeMove_full (g : GameState) (k : ℕ)
    (h : ∀ (r : Fin 6) (c : Fin 7), g.Board r c ≠ 0) : aiMakeMove g k = g := by
  simp only [aiMakeMove]
  have hfst : (getBestMove g.Board k).1 = g.Board := getBestMove_fst _ _
  have hbnd := getBestMove_snd_bounds g.Board k
  have hcf : placePiece (getBestMove g.Board k).1 (getBestMove g.Board k).2
      PLAYER_2 = .columnFull := by
    rw [hfst]
    unfold placePiece
    rw [dif_pos hbnd]
    have hnone := lowestEmptyRow_eq_none g.Board
      ⟨((getBestMove g.Board k).2).toNat, by omega⟩ (fun r => h r _)
    simp [placePieceF, hnone]
  rw [hcf, hfst]

/-- C10: `getBestMove` always returns a column in [0,7), on every board;
when no column has room `getValidMoves` is empty and `findRandomValidMove`
returns 0 instead of sampling an empty list; and on a completely full board
`aiMakeMove` observes the full column and returns with the state
unchanged. -/
theorem getBestMove_total :
    (∀ (b : Grid) (k : ℕ), 0 ≤ (getBestMove b k).2 ∧ (getBestMove b k).2 < 7) ∧
    (∀ (b : Grid) (k : ℕ), getValidMoves b = [] → findRandomValidMove b k = 0) ∧
    (∀ (g : GameState) (k : ℕ), (∀ (r : Fin 6) (c : Fin 7), g.Board r c ≠ 0) →
      aiMakeMove g k = g) := by
  refine ⟨getBestMove_snd_bounds, ?_, aiMakeMove_full⟩
  intro b k h
  unfold findRandomValidMove
  rw [dif_pos (by simp [h])]

/-- A completely full board with no four-in-a-row, and the game state that
holds it. -/
def bFull : Grid :=
  ![![1, 2, 1, 2, 1, 2, 1], ![1, 2, 1, 2, 1, 2, 1], ![2, 1, 2, 1, 2, 1, 2],
    ![2, 1, 2, 1, 2, 1, 2], ![1, 2, 1, 2, 1, 2, 1], ![1, 2, 1, 2, 1, 2, 1]]

/-- The state used to exercise the full-board branch of `aiMakeMove`. -/
def gFull : GameState :=
  { Board := bFull, CurrentPlayer := 2, Mode := "ai", GameOver := false,
    Winner := 0, StatusMessage := "" }

/-- Witness for the C10 theorem at the completely full board `bFull`. -/
theorem getBestMove_total_witness :
    (getValidMoves bFull = [] ∧ findRandomValidMove bFull 5 = 0) ∧
    ((∀ (r : Fin 6) (c : Fin 7), gFull.Board r c ≠ 0) ∧
      aiMakeMove gFull 3 = gFull) :=
  ⟨⟨by decide, getBestMove_total.2.1 bFull 5 (by decide)⟩,
    ⟨by decide, getBestMove_total.2.2 gFull 3 (by decide)⟩⟩

/-!
## Claim C8 — gravity invariant
-/

theorem gravity_step (b : Grid) (c : Fin 7) (p : ℤ) (b' : Grid) (r : Fin 6)
    (hg : gravityOK b) (hp : placePieceF b c p = some (b', r)) :
    gravityOK b' := by
  unfold placePieceF at hp
  cases hlow : lowestEmptyRow b c with
  | none => rw [hlow] at hp; exact Option.noConfusion hp
  | some r0 =>
    rw [hlow] at hp
    simp only [Option.map_some', Option.some.injEq, Prod.mk.injEq] at hp
    obtain ⟨hb', hr0⟩ := hp
    subst hb'
    obtain ⟨hempty, habove⟩ := lowestEmptyRow_spec b c r0 hlow
    intro c' rr rr' hocc hle
    by_cases hc : c' = c
    · subst hc
      by_cases hrr : rr = r0
      · subst hrr
        rw [setCell_self] at hocc
        by_cases hrr' : rr' = rr
        · subst hrr'; rw [setCell_self]; exact hocc
        · rw [setCell_other _ _ _ _ _ _ (by tauto)]
          exact habove rr' (lt_of_le_of_ne hle (fun he => hrr' he.symm))
      · rw [setCell_other _ _ _ _ _ _ (by tauto)] at hocc
        by_cases hrr' : rr' = r0
        · subst hrr'
          exact absurd hempty
            (hg c' rr rr' hocc (le_of_lt (lt_of_le_of_ne hle hrr)))
        · rw [setCell_other _ _ _ _ _ _ (by tauto)]
          exact hg c' rr rr' hocc hle
    · rw [setCell_other _ _ _ _ _ _ (by tauto)] at hocc
      rw [setCell_other _ _ _ _ _ _ (by tauto)]
      exact hg c' rr rr' hocc hle

theorem gravity_reachable (b : Grid) (h : Reachable b) : gravityOK b := by
  induction h with
  | empty => intro c r r' hocc _; exact absurd rfl hocc
  | step b b' c p r hre hp hplace ih => exact gravity_step b c p b' r ih hplace

/-- C8: gravity is preserved by every successful placement — if every
column's occupied cells form a gap-free run ending at the bottom row, the
same holds after `placePiece` — and therefore holds on every board reachable
from the empty board by legal moves. -/
theorem gravity_preserved :
    (∀ (b : Grid) (c : Fin 7) (p : ℤ) (b' : Grid) (r : Fin 6),
      gravityOK b → placePieceF b c p = some (b', r) → gravityOK b') ∧
    (∀ b : Grid, Reachable b → gravityOK b) :=
  ⟨gravity_step, gravity_reachable⟩

/-- Witness for the C8 theorem: one placement of player 1 into column 0 of
the empty board, and the reachability of the empty board itself. -/
theorem gravity_preserved_witness :
    (gravityOK emptyGrid ∧
      placePieceF emptyGrid 0 1 = some (setCell emptyGrid 5 0 1, 5) ∧
      gravityOK (setCell emptyGrid 5 0 1)) ∧
    (Reachable emptyGrid ∧ gravityOK emptyGrid) :=
  ⟨⟨by decide, by decide,
      gravity_preserved.1 emptyGrid 0 1 (setCell emptyGrid 5 0 1) 5
        (by decide) (by decide)⟩,
    ⟨Reachable.empty, gravity_preserved.2 emptyGrid Reachable.empty⟩⟩

/-!
## `checkGameEnd` shape lemmas and claim C3
-/

theorem checkGameEnd_win (g : GameState) (row : Fin 6) (col : Fin 7)
    (hw : 0 < checkForWin g.Board row col) :
    checkGameEnd g row col =
      { g with GameOver := true, Winner := checkForWin g.Board row col,
               StatusMessage := getWinnerMessage (checkForWin g.Board row col) } := by
  unfold checkGameEnd
  rw [if_pos hw]

theorem checkGameEnd_draw (g : GameState) (row : Fin 6) (col : Fin 7)
    (hw : checkForWin g.Board row col ≤ 0) (hf : isBoardFull g.Board = true) :
    checkGameEnd g row col =
      { g with GameOver := true, Winner := PLAYER_DRAW,
               StatusMessage := "🤝 Match nul !" } := by
  unfold checkGameEnd
  rw [if_neg (by omega), if_pos (by simp [hf])]

theorem checkGameEnd_active (g : GameState) (row : Fin 6) (col : Fin 7)
    (hw : checkForWin g.Board row col ≤ 0) (hf : isBoardFull g.Board = false) :
    checkGameEnd g row col =
      if g.Mode = GAME_MODE_TWO_PLAYER ∨
         (g.Mode = GAME_MODE_AI ∧ g.CurrentPlayer = PLAYER_1)
      then { g with CurrentPlayer := 3 - g.CurrentPlayer, StatusMessage := "" }
      else { g with StatusMessage := "" } := by
  unfold checkGameEnd
  rw [if_neg (by omega), if_neg (by simp [hf])]
  split_ifs with hm
  · norm_num [PLAYER_1, PLAYER_2]
  · rfl

theorem checkGameEnd_Board (g : GameState) (row : Fin 6) (col : Fin 7) :
    (checkGameEnd g row col).Board = g.Board := by
  unfold checkGameEnd
  split_ifs <;> rfl

theorem checkGameEnd_Mode (g : GameState) (row : Fin 6) (col : Fin 7) :
    (checkGameEnd g row col).Mode = g.Mode := by
  unfold checkGameEnd
  split_ifs <;> rfl

theorem checkGameEnd_not_over (g : GameState) (row : Fin 6) (col : Fin 7)
    (h : (checkGameEnd g row col).GameOver = false) :
    checkForWin g.Board row col ≤ 0 ∧ isBoardFull g.Board = false ∧
      g.GameOver = false := by
  unfold checkGameEnd at h
  split_ifs at h with h1 h2 h3
  · exact ⟨by omega, by simpa using h2, h⟩
  · exact ⟨by omega, by simpa using h2, h⟩

/-- C3 (amended): for every move with landing cell `(row, col)`, if
`checkForWin` returns a side the state transitions to game-over with that
winner; else if the board is full, to game-over with `Winner = Draw (3)`;
otherwise the game stays active and the side to move flips exactly when the
mode is `twoPlayer`, or the mode is `ai` with player 1 to move — in `ai`
mode with player 2 to move, `checkGameEnd` leaves the side unchanged (the
caller `aiMakeMove` is what hands the turn back to player 1). -/
theorem checkGameEnd_transition (g : GameState) (row : Fin 6) (col : Fin 7) :
    (0 < checkForWin g.Board row col →
      checkGameEnd g row col =
        { g with GameOver := true, Winner := checkForWin g.Board row col,
                 StatusMessage :=
                   getWinnerMessage (checkForWin g.Board row col) }) ∧
    (checkForWin g.Board row col ≤ 0 → isBoardFull g.Board = true →
      checkGameEnd g row col =
        { g with GameOver := true, Winner := PLAYER_DRAW,
                 StatusMessage := "🤝 Match nul !" }) ∧
    (checkForWin g.Board row col ≤ 0 → isBoardFull g.Board = false →
      checkGameEnd g row col =
        if g.Mode = GAME_MODE_TWO_PLAYER ∨
           (g.Mode = GAME_MODE_AI ∧ g.CurrentPlayer = PLAYER_1)
        then { g with CurrentPlayer := 3 - g.CurrentPlayer,
                      StatusMessage := "" }
        else { g with StatusMessage := "" }) :=
  ⟨checkGameEnd_win g row col,
    checkGameEnd_draw g row col,
    checkGameEnd_active g row col⟩

/-- An `ai`-mode state in which the automated side (player 2) has just
landed a non-winning piece at cell (5,0): the human played column 3, the
automated side column 0. -/
def gAiTurn : GameState :=
  { Board :=
      ![![0, 0, 0, 0, 0, 0, 0], ![0, 0, 0, 0, 0, 0, 0],
        ![0, 0, 0, 0, 0, 0, 0], ![0, 0, 0, 0, 0, 0, 0],
        ![0, 0, 0, 0, 0, 0, 0], ![2, 0, 0, 1, 0, 0, 0]],
    CurrentPlayer := 2, Mode := "ai", GameOver := false, Winner := 0,
    StatusMessage := "" }

/-- Counterexample to C3 as stated: in `gAiTurn` the accepted move at
(5,0) neither wins nor fills the board, the game stays active, yet the side
to move does not become the other side — `CurrentPlayer` stays 2. -/
theorem checkGameEnd_no_flip_counterexample :
    checkForWin gAiTurn.Board 5 0 = 0 ∧
    isBoardFull gAiTurn.Board = false ∧
    (checkGameEnd gAiTurn 5 0).GameOver = false ∧
    gAiTurn.CurrentPlayer = 2 ∧
    (checkGameEnd gAiTurn 5 0).CurrentPlayer = 2 := by
  decide

/-- Witness for the C3 theorem at `gAiTurn`, exercising the amended
stays-active clause. -/
theorem checkGameEnd_transition_witness :
    (checkForWin gAiTurn.Board 5 0 ≤ 0 ∧ isBoardFull gAiTurn.Board = false) ∧
    checkGameEnd gAiTurn 5 0 =
      (if gAiTurn.Mode = GAME_MODE_TWO_PLAYER ∨
          (gAiTurn.Mode = GAME_MODE_AI ∧ gAiTurn.CurrentPlayer = PLAYER_1)
       then { gAiTurn with CurrentPlayer := 3 - gAiTurn.CurrentPlayer,
                           StatusMessage := "" }
       else { gAiTurn with StatusMessage := "" }) :=
  ⟨⟨by decide, by decide⟩,
    (checkGameEnd_transition gAiTurn 5 0).2.2 (by decide) (by decide)⟩

/-!
## Claim C9 — exactly one automated reply per human move
-/

theorem pieceCount_setCell (b : Grid) (r : Fin 6) (c : Fin 7) (p : ℤ)
    (h0 : b r c = 0) (hp : p ≠ 0) :
    pieceCount (setCell b r c p) = pieceCount b + 1 := by
  unfold pieceCount
  have hset :
      (Finset.univ.filter
        fun rc : Fin 6 × Fin 7 => setCell b r c p rc.1 rc.2 ≠ 0) =
      insert (r, c)
        (Finset.univ.filter fun rc : Fin 6 × Fin 7 => b rc.1 rc.2 ≠ 0) := by
    ext ⟨x, y⟩
    by_cases hxy : x = r ∧ y = c
    · obtain ⟨hx, hy⟩ := hxy
      subst hx; subst hy
      simp [setCell, hp]
    · simp only [Finset.mem_filter, Finset.mem_univ, true_and,
        Finset.mem_insert, Prod.mk.injEq]
      rw [setCell_other b r c p x y hxy]
      constructor
      · exact fun hb => Or.inr hb
      · rintro (hb | hb)
        · exact absurd hb hxy
        · exact hb
  rw [hset, Finset.card_insert_of_not_mem (by simp [h0])]

theorem isValidMove_coe (b : Grid) (c : Fin 7) :
    isValidMove b (c : ℤ) = (b 0 c == 0) := by
  have hb : (0 : ℤ) ≤ (c : ℤ) ∧ (c : ℤ) < 7 :=
    ⟨by exact_mod_cast Nat.zero_le _, by exact_mod_cast c.isLt⟩
  unfold isValidMove
  rw [dif_pos hb]
  simp only [Int.toNat_natCast, Fin.eta]

theorem isBoardFull_false_nonempty (b : Grid) (hf : isBoardFull b = false) :
    getValidMoves b ≠ [] := by
  have hex : ∃ c : Fin 7, b 0 c = 0 := by
    by_contra hno
    push_neg at hno
    have : isBoardFull b = true := by
      unfold isBoardFull
      rw [List.all_eq_true]
      intro c _
      simpa using hno c
    rw [this] at hf
    exact Bool.noConfusion hf
  obtain ⟨c, hc⟩ := hex
  intro hnil
  have hmem : (c : ℤ) ∈ getValidMoves b := by
    unfold getValidMoves
    rw [List.mem_filter]
    refine ⟨?_, ?_⟩
    · simp only [List.mem_map, List.mem_range]
      exact ⟨c.val, c.isLt, rfl⟩
    · rw [isValidMove_coe]
      simp [hc]
  rw [hnil] at hmem
  exact absurd hmem (List.not_mem_nil _)

theorem placePiece_of_valid (b : Grid) (col : ℤ) (p : ℤ)
    (h : isValidMove b col = true) :
    ∃ (c : Fin 7) (r : Fin 6), (c : ℤ) = col ∧ b r c = 0 ∧
      placePiece b col p = .placed (setCell b r c p) r c := by
  have hb := isValidMove_bounds b col h
  refine ⟨⟨col.toNat, by omega⟩, ?_⟩
  have hcol : ((⟨col.toNat, by omega⟩ : Fin 7) : ℤ) = col := by
    simp only [Fin.val_mk]
    omega
  have htop : b 0 ⟨col.toNat, by omega⟩ = 0 := by
    unfold isValidMove at h
    rw [dif_pos hb] at h
    simpa using h
  obtain ⟨r, hr⟩ := lowestEmptyRow_isSome b _ 0 htop
  have hempty := (lowestEmptyRow_spec b _ r hr).1
  refine ⟨r, hcol, hempty, ?_⟩
  unfold placePiece
  rw [dif_pos hb]
  simp [placePieceF, hr]

theorem getBestMove_snd_valid (b : Grid) (k : ℕ)
    (h : getValidMoves b ≠ []) :
    isValidMove b (getBestMove b k).2 = true := by
  rw [getBestMove_refine]
  exact chooseColumnSpec_valid b k h

theorem aiMakeMove_step (g : GameState) (k : ℕ)
    (hne : getValidMoves g.Board ≠ []) :
    ∃ (c : Fin 7) (r : Fin 6), g.Board r c = 0 ∧
      aiMakeMove g k =
        (if (checkGameEnd
              { g with Board := setCell g.Board r c PLAYER_2 } r c).GameOver
            = false
         then { checkGameEnd
                  { g with Board := setCell g.Board r c PLAYER_2 } r c with
                CurrentPlayer := PLAYER_1, StatusMessage := "" }
         else checkGameEnd
                { g with Board := setCell g.Board r c PLAYER_2 } r c) := by
  obtain ⟨c, r, hcol, hempty, hplaced⟩ :=
    placePiece_of_valid g.Board (getBestMove g.Board k).2 PLAYER_2
      (getBestMove_snd_valid g.Board k hne)
  refine ⟨c, r, hempty, ?_⟩
  simp only [aiMakeMove, getBestMove_fst]
  rw [hplaced]

theorem placePieceF_some (b : Grid) (c : Fin 7) (p : ℤ) (b' : Grid)
    (r : Fin 6) (h : placePieceF b c p = some (b', r)) :
    b' = setCell b r c p ∧ b r c = 0 := by
  unfold placePieceF at h
  cases hlow : lowestEmptyRow b c with
  | none => rw [hlow] at h; exact Option.noConfusion h
  | some r0 =>
    rw [hlow] at h
    simp only [Option.map_some', Option.some.injEq, Prod.mk.injEq] at h
    obtain ⟨hb, hr⟩ := h
    subst hr
    exact ⟨hb.symm, (lowestEmptyRow_spec b c r0 hlow).1⟩

theorem handleMove_placed (g : GameState) (c : Fin 7) (k : ℕ) (b' : Grid)
    (r : Fin 6)
    (hplace : placePieceF g.Board c g.CurrentPlayer = some (b', r)) :
    handleMove g (c : ℤ) k =
      (if (checkGameEnd { g with Board := b' } r c).GameOver = false ∧
          (checkGameEnd { g with Board := b' } r c).Mode = GAME_MODE_AI ∧
          (checkGameEnd { g with Board := b' } r c).CurrentPlayer = PLAYER_2
       then aiMakeMove (checkGameEnd { g with Board := b' } r c) k
       else checkGameEnd { g with Board := b' } r c) := by
  have hcb : ¬((c : ℤ) < 0 ∨ 7 ≤ (c : ℤ)) := by
    have hlt : (c : ℤ) < 7 := by exact_mod_cast c.isLt
    have h0 : (0 : ℤ) ≤ (c : ℤ) := by exact_mod_cast Nat.zero_le c.val
    omega
  unfold handleMove
  rw [if_neg hcb, placePiece_coe, hplace]

/-- C9: in `ai` mode, when the human's accepted move does not end the game,
`handleMove` returns after exactly one automated reply — the result is one
`aiMakeMove` applied to the post-human state, the board gains exactly two
pieces — and if that reply does not end the game either, `CurrentPlayer`
is 1 afterwards, so the automated side never moves twice in a row. -/
theorem handleMove_single_ai_reply (g : GameState) (c : Fin 7) (k : ℕ)
    (b' : Grid) (r : Fin 6)
    (hmode : g.Mode = GAME_MODE_AI) (hcp : g.CurrentPlayer = PLAYER_1)
    (hplace : placePieceF g.Board c g.CurrentPlayer = some (b', r))
    (hnotover : (checkGameEnd { g with Board := b' } r c).GameOver = false) :
    handleMove g (c : ℤ) k =
      aiMakeMove (checkGameEnd { g with Board := b' } r c) k ∧
    pieceCount (handleMove g (c : ℤ) k).Board = pieceCount g.Board + 2 ∧
    ((handleMove g (c : ℤ) k).GameOver = false →
      (handleMove g (c : ℤ) k).CurrentPlayer = PLAYER_1) := by
  obtain ⟨hw, hf, hgo⟩ := checkGameEnd_not_over _ r c hnotover
  have hflip : checkGameEnd { g with Board := b' } r c =
      { g with Board := b', CurrentPlayer := 2, StatusMessage := "" } := by
    rw [checkGameEnd_active _ r c hw hf, if_pos (Or.inr ⟨hmode, hcp⟩)]
    have : ({ g with Board := b' } : GameState).CurrentPlayer = 1 := hcp
    rw [this]
    norm_num
  have hmove : handleMove g (c : ℤ) k =
      aiMakeMove (checkGameEnd { g with Board := b' } r c) k := by
    rw [handleMove_placed g c k b' r hplace,
      if_pos ⟨hnotover, by rw [hflip]; exact hmode, by rw [hflip]; rfl⟩]
  obtain ⟨hb'eq, hempty⟩ := placePieceF_some g.Board c g.CurrentPlayer b' r
    hplace
  have hcount1 : pieceCount b' = pieceCount g.Board + 1 := by
    rw [hb'eq, hcp]
    exact pieceCount_setCell g.Board r c PLAYER_1 hempty (by decide)
  have hne : getValidMoves b' ≠ [] :=
    isBoardFull_false_nonempty b' hf
  obtain ⟨c2, r2, hempty2, hai⟩ :=
    aiMakeMove_step (checkGameEnd { g with Board := b' } r c) k
      (by rw [hflip]; exact hne)
  have hg1Board : (checkGameEnd { g with Board := b' } r c).Board = b' := by
    rw [hflip]
  have hBoard : (aiMakeMove (checkGameEnd { g with Board := b' } r c) k).Board
      = setCell (checkGameEnd { g with Board := b' } r c).Board r2 c2
          PLAYER_2 := by
    rw [hai]
    split_ifs
    · exact checkGameEnd_Board _ r2 c2
    · exact checkGameEnd_Board _ r2 c2
  refine ⟨hmove, ?_, ?_⟩
  · rw [hmove, hBoard, hg1Board]
    rw [hg1Board] at hempty2
    rw [pieceCount_setCell b' r2 c2 PLAYER_2 hempty2 (by decide), hcount1]
  · rw [hmove, hai]
    split_ifs with hg2
    · intro _; rfl
    · intro hcontra; exact absurd hcontra hg2

/-- The initial `ai`-mode state: empty board, player 1 to move. -/
def gAiStart : GameState :=
  { Board := emptyGrid, CurrentPlayer := 1, Mode := "ai", GameOver := false,
    Winner := 0, StatusMessage := "" }

/-- The board after the human's opening move in column 0. -/
def bAfter : Grid := setCell emptyGrid 5 0 1

/-- Witness for the C9 theorem: the human opens in column 0 of the empty
board in `ai` mode. -/
theorem handleMove_single_ai_reply_witness :
    (gAiStart.Mode = GAME_MODE_AI ∧ gAiStart.CurrentPlayer = PLAYER_1 ∧
      placePieceF gAiStart.Board 0 gAiStart.CurrentPlayer =
        some (bAfter, 5) ∧
      (checkGameEnd { gAiStart with Board := bAfter } 5 0).GameOver =
        false) ∧
    (handleMove gAiStart ((0 : Fin 7) : ℤ) 0 =
        aiMakeMove (checkGameEnd { gAiStart with Board := bAfter } 5 0) 0 ∧
      pieceCount (handleMove gAiStart ((0 : Fin 7) : ℤ) 0).Board =
        pieceCount gAiStart.Board + 2 ∧
      ((handleMove gAiStart ((0 : Fin 7) : ℤ) 0).GameOver = false →
        (handleMove gAiStart ((0 : Fin 7) : ℤ) 0).CurrentPlayer =
          PLAYER_1)) :=
  ⟨⟨by decide, by decide, by decide, by decide⟩,
    handleMove_single_ai_reply gAiStart 0 0 bAfter 5 (by decide) (by decide)
      (by decide) (by decide)⟩

/-!
## Claim C1 — moves after game over are not rejected
-/

/-- C1 (amended): neither `handleMove` nor `handleMoveAPI` consults
`GameOver` — a move request submitted while the game is over is processed
like any other: with an in-range column that has room and a nonzero
`CurrentPlayer`, a piece is placed and the `Board` (hence the whole
`GameState`) changes. -/
theorem gameOver_move_processed (g : GameState) (c : Fin 7) (k : ℕ)
    (r0 : Fin 6) (hover : g.GameOver = true) (hcp : g.CurrentPlayer ≠ 0)
    (hroom : g.Board r0 c = 0) :
    (handleMove g (c : ℤ) k).Board ≠ g.Board ∧
    ∃ g', handleMoveAPI g (c : ℤ) = some g' ∧ g'.Board ≠ g.Board := by
  obtain ⟨r, hr⟩ := lowestEmptyRow_isSome g.Board c r0 hroom
  have hplace : placePieceF g.Board c g.CurrentPlayer =
      some (setCell g.Board r c g.CurrentPlayer, r) := by
    simp [placePieceF, hr]
  have hempty := (lowestEmptyRow_spec g.Board c r hr).1
  have hdiff : setCell g.Board r c g.CurrentPlayer ≠ g.Board := by
    intro he
    have hcell := congrFun (congrFun he r) c
    rw [setCell_self] at hcell
    exact hcp (hcell.trans hempty)
  have hstill : (checkGameEnd
      { g with Board := setCell g.Board r c g.CurrentPlayer } r c).GameOver
      = true := by
    by_contra hno
    have h3 := (checkGameEnd_not_over _ r c (by simpa using hno)).2.2
    simp [hover] at h3
  constructor
  · rw [handleMove_placed g c k _ r hplace, if_neg (by simp [hstill])]
    rw [checkGameEnd_Board]
    exact hdiff
  · refine ⟨checkGameEnd
      { g with Board := setCell g.Board r c g.CurrentPlayer } r c, ?_, ?_⟩
    · unfold handleMoveAPI
      rw [placePiece_coe, hplace]
    · rw [checkGameEnd_Board]
      exact hdiff

/-- A finished two-player game: player 1 has a vertical four in column 0
(rows 2–5), `GameOver` is set, player 1 is recorded as winner. -/
def gOverState : GameState :=
  { Board :=
      ![![0, 0, 0, 0, 0, 0, 0], ![0, 0, 0, 0, 0, 0, 0],
        ![1, 0, 0, 0, 0, 0, 0], ![1, 2, 0, 0, 0, 0, 0],
        ![1, 2, 0, 0, 0, 0, 0], ![1, 2, 0, 0, 0, 0, 0]],
    CurrentPlayer := 1, Mode := "twoPlayer", GameOver := true, Winner := 1,
    StatusMessage := "🎉 Le Joueur Rouge (Joueur 1) gagne ! 🎉" }

/-- Counterexample to C1 as stated: with the game over (`gOverState`), a
move into column 2 is not rejected — both handlers place a piece and the
state is not left unchanged. -/
theorem gameOver_move_counterexample :
    gOverState.GameOver = true ∧
    (handleMove gOverState 2 0).Board ≠ gOverState.Board ∧
    handleMove gOverState 2 0 ≠ gOverState ∧
    handleMoveAPI gOverState 2 ≠ some gOverState := by
  have hb : (handleMove gOverState 2 0).Board ≠ gOverState.Board := by decide
  refine ⟨by decide, hb, fun h => hb (congrArg GameState.Board h), ?_⟩
  intro h
  have hb2 : (handleMoveAPI gOverState 2 ≠ some gOverState) := by decide
  exact hb2 h

/-- Witness for the C1 theorem at `gOverState`, column 2. -/
theorem gameOver_move_processed_witness :
    (gOverState.GameOver = true ∧ gOverState.CurrentPlayer ≠ 0 ∧
      gOverState.Board 5 2 = 0) ∧
    ((handleMove gOverState ((2 : Fin 7) : ℤ) 0).Board ≠ gOverState.Board ∧
      ∃ g', handleMoveAPI gOverState ((2 : Fin 7) : ℤ) = some g' ∧
        g'.Board ≠ gOverState.Board) :=
  ⟨⟨by decide, by decide, by decide⟩,
    gameOver_move_processed gOverState 2 0 5 (by decide) (by decide)
      (by decide)⟩

/-!
## Claim C2 — column bounds checking
-/

/-- C2 (amended): `handleMove` (the form handler) rejects a column outside
[0,7) before any Board Engine operation runs; `handleMoveAPI` (the JSON
handler) performs no bounds check and passes the raw column straight to
`placePiece`, whose unguarded out-of-range access is reached — that error
branch is reachable, as an index-out-of-range fault. -/
theorem column_bounds_handlers (g : GameState) (col : ℤ) (k : ℕ)
    (h : col < 0 ∨ 7 ≤ col) :
    handleMove g col k = { g with StatusMessage := "❌ Colonne invalide" } ∧
    placePiece g.Board col g.CurrentPlayer = .panic ∧
    handleMoveAPI g col = none := by
  have hpanic : placePiece g.Board col g.CurrentPlayer = .panic := by
    unfold placePiece
    rw [dif_neg (by omega)]
  refine ⟨?_, hpanic, ?_⟩
  · unfold handleMove
    rw [if_pos h]
  · unfold handleMoveAPI
    rw [hpanic]

/-- The initial two-player state (empty board, player 1 to move). -/
def gStart : GameState :=
  { Board := emptyGrid, CurrentPlayer := 1, Mode := "twoPlayer",
    GameOver := false, Winner := 0, StatusMessage := "" }

/-- Counterexample to C2 as stated: a request with column 7 reaches
`placePiece` through `handleMoveAPI` with an out-of-range column, and the
out-of-range branch fires (an index-out-of-range fault, `none`), so the
rejection claimed to happen before the Board Engine does not exist on the
JSON path. -/
theorem handleMoveAPI_out_of_range_counterexample :
    placePiece gStart.Board 7 gStart.CurrentPlayer = .panic ∧
    handleMoveAPI gStart 7 = none := by
  decide

/-- Witness for the C2 theorem at column -1 of the initial state. -/
theorem column_bounds_handlers_witness :
    ((-1 : ℤ) < 0 ∨ 7 ≤ (-1 : ℤ)) ∧
    (handleMove gStart (-1) 0 =
        { gStart with StatusMessage := "❌ Colonne invalide" } ∧
      placePiece gStart.Board (-1) gStart.CurrentPlayer = .panic ∧
      handleMoveAPI gStart (-1) = none) :=
  ⟨Or.inl (by decide), column_bounds_handlers gStart (-1) 0
    (Or.inl (by decide))⟩

end Puissance4
